import Mathlib

/-!
Shallow embedding of the renderCubeFile repository (cube-file parser,
isosurface/mesh post-processing, input validation, bond inference) and
proofs about the claims of its specification.

Numeric values are modelled as exact rationals; machine floats in the
source hold decimal literals that rationals represent exactly for the
inputs considered here.
-/

namespace RenderCube

/-- Vertex coordinates and atom coordinates: a 3-tuple of rationals. -/
def Vec3 : Type := ℚ × ℚ × ℚ

instance : DecidableEq Vec3 := by
  unfold Vec3
  infer_instance

/-- Triangle: three vertex indices. -/
def Tri : Type := ℕ × ℕ × ℕ

instance : DecidableEq Tri := by
  unfold Tri
  infer_instance

/-- Unit resolution from cubeFile.py lines 194-205.  The source condition is
written exactly as in the code: it tests `numberOfVoxelsX < 0` three times
(the Y and Z counts are never inspected).  On the Angstrom branch all three
counts are replaced by their absolute values. -/
def determineUnit (numberOfVoxelsX numberOfVoxelsY numberOfVoxelsZ : ℤ) :
    String × ℤ × ℤ × ℤ :=
  if numberOfVoxelsX < 0 ∨ numberOfVoxelsX < 0 ∨ numberOfVoxelsX < 0 then
    ("Angstrom", |numberOfVoxelsX|, |numberOfVoxelsY|, |numberOfVoxelsZ|)
  else
    ("Bohr", numberOfVoxelsX, numberOfVoxelsY, numberOfVoxelsZ)

/-- The fixed periodic-table lookup `CubeFile.elementNumToString`
(cubeFile.py lines 34-132), covering atomic numbers 0-96. -/
def elementNumToString (n : ℕ) : Option String :=
  match n with
  | 0 => some "udf"
  | 1 => some "H"
  | 2 => some "He"
  | 3 => some "Li"
  | 4 => some "Be"
  | 5 => some "B"
  | 6 => some "C"
  | 7 => some "N"
  | 8 => some "O"
  | 9 => some "F"
  | 10 => some "Ne"
  | 11 => some "Na"
  | 12 => some "Mg"
  | 13 => some "Al"
  | 14 => some "Si"
  | 15 => some "P"
  | 16 => some "S"
  | 17 => some "Cl"
  | 18 => some "Ar"
  | 19 => some "K"
  | 20 => some "Ca"
  | 21 => some "Sc"
  | 22 => some "Ti"
  | 23 => some "V"
  | 24 => some "Cr"
  | 25 => some "Mn"
  | 26 => some "Fe"
  | 27 => some "Co"
  | 28 => some "Ni"
  | 29 => some "Cu"
  | 30 => some "Zn"
  | 31 => some "Ga"
  | 32 => some "Ge"
  | 33 => some "As"
  | 34 => some "Se"
  | 35 => some "Br"
  | 36 => some "Kr"
  | 37 => some "Rb"
  | 38 => some "Sr"
  | 39 => some "Y"
  | 40 => some "Zr"
  | 41 => some "Nb"
  | 42 => some "Mo"
  | 43 => some "Tc"
  | 44 => some "Ru"
  | 45 => some "Rh"
  | 46 => some "Pd"
  | 47 => some "Ag"
  | 48 => some "Cd"
  | 49 => some "In"
  | 50 => some "Sn"
  | 51 => some "Sb"
  | 52 => some "Te"
  | 53 => some "I"
  | 54 => some "Xe"
  | 55 => some "Cs"
  | 56 => some "Ba"
  | 57 => some "La"
  | 58 => some "Ce"
  | 59 => some "Pr"
  | 60 => some "Nd"
  | 61 => some "Pm"
  | 62 => some "Sm"
  | 63 => some "Eu"
  | 64 => some "Gd"
  | 65 => some "Tb"
  | 66 => some "Dy"
  | 67 => some "Ho"
  | 68 => some "Er"
  | 69 => some "Tm"
  | 70 => some "Yb"
  | 71 => some "Lu"
  | 72 => some "Hf"
  | 73 => some "Ta"
  | 74 => some "W"
  | 75 => some "Re"
  | 76 => some "Os"
  | 77 => some "Ir"
  | 78 => some "Pt"
  | 79 => some "Au"
  | 80 => some "Hg"
  | 81 => some "Tl"
  | 82 => some "Pb"
  | 83 => some "Bi"
  | 84 => some "Po"
  | 85 => some "At"
  | 86 => some "Rn"
  | 87 => some "Fr"
  | 88 => some "Ra"
  | 89 => some "Ac"
  | 90 => some "Th"
  | 91 => some "Pa"
  | 92 => some "U"
  | 93 => some "Np"
  | 94 => some "Pu"
  | 95 => some "Am"
  | 96 => some "Cm"
  | _ => none

/-- Assignment into the `nameOfAtoms` array (cubeFile.py line 185 and 190).
The array is created by numpy as `np.empty((n), str)`, which produces a
fixed-width one-character unicode array (dtype U1); assigning a longer
string into such an array keeps only its first character. -/
def storeU1 (s : String) : String := String.mk (s.toList.take 1)

/-- Symbol actually stored for an atom line with the given atomic number:
the table lookup of cubeFile.py line 190 followed by the one-character
truncation performed by the U1 numpy array it is assigned into. -/
def storedAtomName (n : ℕ) : Option String := (elementNumToString n).map storeU1

/-- Vertex translation of cubeFile.py lines 311-322
(CubeFile._translateVerteciesToCenterOfSimulationBox): each coordinate of
each vertex is shifted by minus the absolute value of the corresponding
origin component. -/
def translateVerteciesToCenterOfSimulationBox (origin : Vec3) (verts : List Vec3) :
    List Vec3 :=
  verts.map (fun v => (v.1 - |origin.1|, v.2.1 - |origin.2.1|, v.2.2 - |origin.2.2|))

/-- Isosurface calculation of cubeFile.py lines 289-309
(CubeFile._calculateIsosurfaces).  The call to the external marching-cubes
routine is modelled by its outcome `mc`: either an error (the routine
raised, e.g. because the level is outside the data range) or a pair of
vertex and face lists.  The source wraps the call in try/except and
returns a pair of empty lists on any exception; on success it translates
the vertices and returns them with the faces unchanged. -/
def calculateIsosurfaces (mc : Except String (List Vec3 × List Tri)) (origin : Vec3) :
    List Vec3 × List Tri :=
  match mc with
  | Except.error _ => ([], [])
  | Except.ok (verts, faces) =>
      (translateVerteciesToCenterOfSimulationBox origin verts, faces)

/-- Triangle mesh: vertex coordinates plus triangle index triples, the
open3d TriangleMesh data the source builds. -/
structure Mesh where
  vertices : List Vec3
  triangles : List Tri
deriving DecidableEq

/-- Membership of a vertex index in a triangle. -/
def triHas (t : Tri) (i : ℕ) : Bool := t.1 == i || t.2.1 == i || t.2.2 == i

/-- Indices adjacent to vertex `i` through some triangle of the mesh. -/
def neighborIndices (m : Mesh) (i : ℕ) : List ℕ :=
  (List.range m.vertices.length).filter
    (fun j => j != i && m.triangles.any (fun t => triHas t i && triHas t j))

/-- Scale a vector by a rational. -/
def vscale (c : ℚ) (v : Vec3) : Vec3 := (c * v.1, c * v.2.1, c * v.2.2)

/-- Componentwise sum of a vector list. -/
def vsum (l : List Vec3) : Vec3 := l.foldl (fun a v => (a.1 + v.1, a.2.1 + v.2.1, a.2.2 + v.2.2)) ((0 : ℚ), (0 : ℚ), (0 : ℚ))

/-- One round of simple Laplacian smoothing, modelling open3d's
TriangleMesh.filter_smooth_simple: each vertex is replaced by the average
of itself and its 1-ring neighbours; the triangle list is unchanged. -/
def smoothOnce (m : Mesh) : Mesh :=
  { vertices :=
      (List.range m.vertices.length).map (fun i =>
        let v := m.vertices.getD i ((0 : ℚ), (0 : ℚ), (0 : ℚ))
        let ns := neighborIndices m i
        let s := vsum (v :: ns.map (fun j => m.vertices.getD j ((0 : ℚ), (0 : ℚ), (0 : ℚ))))
        vscale (1 / (1 + (ns.length : ℚ))) s),
    triangles := m.triangles }

/-- Iterated simple smoothing filter, modelling open3d's
TriangleMesh.filter_smooth_simple with a number_of_iterations argument. -/
def filterSmoothSimple (m : Mesh) : ℕ → Mesh
  | 0 => m
  | n + 1 => filterSmoothSimple (smoothOnce m) n

/-- Mesh creation of cubeFile.py lines 325-345
(CubeFile._createMeshFromVerticesAndFaces).  The source builds the mesh
from the vertices and faces and then evaluates
mesh.filter_smooth_simple(number_of_iterations=filterIterations) without
assigning its result: open3d's filter returns a new smoothed mesh and does
not modify the receiver, so the smoothed mesh is discarded and the
function returns the mesh it built from the raw vertices and faces. -/
def createMeshFromVerticesAndFaces (verts : List Vec3) (faces : List Tri)
    (filterIterations : ℕ) : Mesh :=
  let mesh : Mesh := { vertices := verts, triangles := faces }
  let _ := filterSmoothSimple mesh filterIterations
  mesh

/-- Test of renderCubeFile.py line 398 applied to one stored bond: whether
the stored pair matches the candidate pair (i, j) in either order. -/
def bondMatches (b : ℕ × ℕ) (i j : ℕ) : Bool :=
  (b.1 == i && b.2 == j) || (b.1 == j && b.2 == i)

/-- One step of the bond-deduplication loop of renderCubeFile.py lines
393-402: the pair (i, j) is added only when no stored pair matches it in
either order (an empty bond set trivially has no match). -/
def addBond (bonds : List (ℕ × ℕ)) (i j : ℕ) : List (ℕ × ℕ) :=
  if bonds.any (fun b => bondMatches b i j) then bonds else bonds ++ [(i, j)]

/-- Bond-set construction of renderCubeFile.py lines 390-404
(_calculateBonds): iterate over atom indices i and, for each neighbour j
recorded for i in the bonds dictionary, run the deduplicating add.  The
dictionary from chemcoord is modelled as the list of its per-atom
neighbour lists and the Python set of tuples as a duplicate-free list. -/
def calculateBonds (bondsDict : List (List ℕ)) : List (ℕ × ℕ) :=
  bondsDict.enum.foldl
    (fun bonds p => p.2.foldl (fun acc j => addBond acc p.1 j) bonds) []

/-- Digit test used by the decimal-literal parser. -/
def isDigitChar (c : Char) : Bool := c.isDigit

/-- Value of a list of decimal digit characters. -/
def digitsToNat (ds : List Char) : ℕ := ds.foldl (fun a c => 10 * a + (c.toNat - 48)) 0

/-- Exponent part of a decimal float literal: an optional sign followed by
at least one digit, consuming the whole remaining input. -/
def parseExponent (cs : List Char) : Option ℤ :=
  let p : ℤ × List Char :=
    match cs with
    | '-' :: rest => (-1, rest)
    | '+' :: rest => (1, rest)
    | _ => (1, cs)
  let ds := p.2.takeWhile isDigitChar
  let rest := p.2.dropWhile isDigitChar
  if ds.isEmpty || !rest.isEmpty then none
  else some (p.1 * (digitsToNat ds : ℤ))

/-- Model of Python's float() on the whitespace-free tokens the data loop
feeds it: an optional sign, a digit string with an optional fractional
part (at least one digit in total), and an optional e/E exponent; any
other input raises ValueError, modelled as none.  The value is returned
as the exact rational the literal denotes (special spellings such as
inf/nan and digit-group underscores do not occur in cube-file data and
are not modelled). -/
def pythonFloat? (s : String) : Option ℚ :=
  let cs := s.toList
  let p : ℤ × List Char :=
    match cs with
    | '-' :: rest => (-1, rest)
    | '+' :: rest => (1, rest)
    | _ => (1, cs)
  let intDs := p.2.takeWhile isDigitChar
  let cs2 := p.2.dropWhile isDigitChar
  let q : List Char × List Char :=
    match cs2 with
    | '.' :: rest => (rest.takeWhile isDigitChar, rest.dropWhile isDigitChar)
    | _ => ([], cs2)
  if intDs.isEmpty && q.1.isEmpty then none
  else
    let mantNum : ℤ := p.1 * (digitsToNat (intDs ++ q.1) : ℤ)
    let fracLen := q.1.length
    match q.2 with
    | [] => some (mkRat mantNum (10 ^ fracLen))
    | c :: rest =>
      if c = 'e' ∨ c = 'E' then
        match parseExponent rest with
        | none => none
        | some e =>
          if 0 ≤ e then some (mkRat (mantNum * 10 ^ e.toNat) (10 ^ fracLen))
          else some (mkRat mantNum (10 ^ (fracLen + e.natAbs)))
      else none

/-- Membership test of the source line 230: whether the token contains the
character E (Python: "E" in value). -/
def containsE (s : String) : Bool := s.toList.contains 'E'

/-- Zero-substitution of cubeFile.py lines 230-231: a token without an
uppercase E is replaced by 0 before the float conversion (the source sets
value = 0, an int; converting it gives 0.0, the same as converting the
string "0"). -/
def zeroSubst (value : String) : String := if containsE value then value else "0"

/-- Data loop of cubeFile.py lines 225-238 over the flattened token
stream: for each token, apply the zero substitution, then try to convert
it; a failed conversion (ValueError) is logged and skipped with the index
still advancing, while a successful conversion is written at the current
index - which raises an uncaught IndexError when the index is outside the
pre-allocated array. -/
def readDataAux (tokens : List String) (data : List ℚ) (idx : ℕ) :
    Except String (List ℚ) :=
  match tokens with
  | [] => Except.ok data
  | t :: ts =>
    match pythonFloat? (zeroSubst t) with
    | none => readDataAux ts data (idx + 1)
    | some x =>
      if idx < data.length then readDataAux ts (data.set idx x) (idx + 1)
      else Except.error "IndexError"

/-- Reading the voxel payload of a cube file with n grid points
(cubeFile.py lines 221-243): the array is pre-allocated with zeros and
then filled by the data loop starting at index 0.  The final reshape to
(nx, ny, nz) always succeeds because the flat length is exactly n; the
flat list is the row-major content of the reshaped field. -/
def readCubeData (tokens : List String) (n : ℕ) : Except String (List ℚ) :=
  readDataAux tokens (List.replicate n 0) 0

/-- Values a JSON input-file entry can hold, as distinguished by the
type checks of inputFile.py (Python type() equality separates bool from
int, as does JSON itself). -/
inductive JValue where
  | jint (n : ℤ)
  | jfloat (q : ℚ)
  | jbool (b : Bool)
  | jstr (s : String)
deriving DecidableEq

/-- The filterIterations branch of InputFile._validateData
(inputFile.py lines 108-114), for an input dictionary in which the key is
present: raise (ValueError) when the value is not an int, raise when it
is negative, otherwise accept. -/
def validateFilterIterations (v : JValue) : Except String Unit :=
  match v with
  | JValue.jint n =>
      if n < 0 then Except.error "Filter iterations must be greater than 0."
      else Except.ok ()
  | _ => Except.error "Wrong type of value for keyword: filterIterations. Must be an integer."

deriving instance DecidableEq for Except

/-- Setting one list entry leaves every other entry unchanged. -/
theorem getD_set_ne {α : Type} (d x : α) :
    ∀ (l : List α) (i j : ℕ), i ≠ j → (l.set i x).getD j d = l.getD j d := by
  intro l
  induction l with
  | nil => intro i j _; rfl
  | cons a l ih =>
    intro i j hij
    cases i with
    | zero =>
      cases j with
      | zero => exact absurd rfl hij
      | succ j => simp [List.set]
    | succ i =>
      cases j with
      | zero => simp [List.set]
      | succ j => simpa [List.set] using ih i j (by omega)

/-- Every entry of the zero-filled pre-allocated array is zero. -/
theorem getD_replicate_zero : ∀ (n i : ℕ), (List.replicate n (0:ℚ)).getD i 0 = 0 := by
  intro n
  induction n with
  | zero => intro i; rfl
  | succ n ih =>
    intro i
    cases i with
    | zero => simp [List.replicate]
    | succ i => simp [List.replicate, ih i]

/-- Behaviour of the data loop when the token count fits into the array:
it succeeds, preserves the array length, leaves entries outside the token
range untouched, and leaves the entry of every unconvertible token
untouched. -/
theorem readDataAux_ok :
    ∀ (tokens : List String) (data : List ℚ) (idx : ℕ),
    idx + tokens.length ≤ data.length →
    ∃ out, readDataAux tokens data idx = Except.ok out ∧
      out.length = data.length ∧
      (∀ i, i < idx ∨ idx + tokens.length ≤ i → out.getD i 0 = data.getD i 0) ∧
      (∀ k (hk : k < tokens.length),
        pythonFloat? (zeroSubst (tokens.get ⟨k, hk⟩)) = none →
        out.getD (idx + k) 0 = data.getD (idx + k) 0) := by
  intro tokens
  induction tokens with
  | nil =>
    intro data idx _
    exact ⟨data, rfl, rfl, fun i _ => rfl, fun k hk => absurd hk (by simp)⟩
  | cons t ts ih =>
    intro data idx h
    have hlen : idx + ts.length + 1 ≤ data.length := by
      simp [List.length_cons] at h
      omega
    cases hpf : pythonFloat? (zeroSubst t) with
    | none =>
      obtain ⟨out, h1, h2, h3, h4⟩ := ih data (idx + 1) (by omega)
      refine ⟨out, ?_, h2, ?_, ?_⟩
      · simp only [readDataAux, hpf]
        exact h1
      · intro i hi
        rcases hi with hi | hi
        · exact h3 i (Or.inl (by omega))
        · simp only [List.length_cons] at hi
          exact h3 i (Or.inr (by omega))
      · intro k hk hnone
        cases k with
        | zero =>
          simpa using h3 idx (Or.inl (by omega))
        | succ k =>
          have hk' : k < ts.length := by simpa using hk
          have h5 := h4 k hk' (by simpa using hnone)
          have hidx : idx + (k + 1) = (idx + 1) + k := by omega
          rw [hidx]
          exact h5
    | some x =>
      have hlt : idx < data.length := by omega
      obtain ⟨out, h1, h2, h3, h4⟩ := ih (data.set idx x) (idx + 1)
        (by simp [List.length_set]; omega)
      refine ⟨out, ?_, ?_, ?_, ?_⟩
      · simp only [readDataAux, hpf]
        rw [if_pos hlt]
        exact h1
      · rw [h2]
        simp [List.length_set]
      · intro i hi
        rcases hi with hi | hi
        · rw [h3 i (Or.inl (by omega))]
          exact getD_set_ne 0 x data idx i (by omega)
        · simp only [List.length_cons] at hi
          rw [h3 i (Or.inr (by omega))]
          exact getD_set_ne 0 x data idx i (by omega)
      · intro k hk hnone
        cases k with
        | zero =>
          simp [hpf] at hnone
        | succ k =>
          have hk' : k < ts.length := by simpa using hk
          have h5 := h4 k hk' (by simpa using hnone)
          have hidx : idx + (k + 1) = (idx + 1) + k := by omega
          rw [hidx, h5]
          exact getD_set_ne 0 x data idx ((idx + 1) + k) (by omega)

/-- Converting the substituted zero token always succeeds with value 0. -/
theorem pythonFloat_zero : pythonFloat? "0" = some 0 := by decide

/-- A bond list has no mirrored pair of distinct indices. -/
def noMirrored (bonds : List (ℕ × ℕ)) : Prop :=
  ∀ i j : ℕ, (i, j) ∈ bonds → (j, i) ∈ bonds → i = j

/-- The deduplicating add preserves freedom from duplicates and from
mirrored pairs. -/
theorem addBond_invariant (bonds : List (ℕ × ℕ)) (i j : ℕ)
    (h : bonds.Nodup ∧ noMirrored bonds) :
    (addBond bonds i j).Nodup ∧ noMirrored (addBond bonds i j) := by
  unfold addBond
  by_cases hc : bonds.any (fun b => bondMatches b i j) = true
  · rw [if_pos hc]
    exact h
  · rw [if_neg hc]
    have hnm : ∀ b ∈ bonds, bondMatches b i j = false := by
      intro b hb
      by_contra hb'
      exact hc (List.any_eq_true.mpr ⟨b, hb, by simpa using hb'⟩)
    constructor
    · rw [List.nodup_append]
      refine ⟨h.1, List.nodup_singleton _, ?_⟩
      intro a ha ha'
      have : a = (i, j) := by simpa using ha'
      subst this
      have := hnm (i, j) ha
      simp [bondMatches] at this
    · intro a b ha hb
      rw [List.mem_append] at ha hb
      rcases ha with ha | ha
      · rcases hb with hb | hb
        · exact h.2 a b ha hb
        · have hba : b = i ∧ a = j := by simpa [Prod.ext_iff] using hb
          obtain ⟨rfl, rfl⟩ := hba
          have := hnm (a, b) ha
          simp [bondMatches] at this
      · have hab : a = i ∧ b = j := by simpa [Prod.ext_iff] using ha
        obtain ⟨rfl, rfl⟩ := hab
        rcases hb with hb | hb
        · have := hnm (b, a) hb
          simp [bondMatches] at this
        · have : b = a ∧ a = b := by simpa [Prod.ext_iff] using hb
          exact this.1.symm

/-- A property preserved by every fold step holds for the fold result. -/
theorem foldl_preserve {α σ : Type} (P : σ → Prop) (f : σ → α → σ)
    (hf : ∀ s a, P s → P (f s a)) :
    ∀ (l : List α) (s : σ), P s → P (l.foldl f s) := by
  intro l
  induction l with
  | nil => exact fun s hs => hs
  | cons a l ih => exact fun s hs => ih (f s a) (hf s a hs)

/-- Claim C1 evidence.  The unit-resolution branch of the parser inspects
only the X voxel count: a header whose Y count is negative while X is
positive keeps unit Bohr and keeps the negative Y count, although turning
all three counts negative (which makes X negative) does produce Angstrom
with absolute values. -/
theorem determineUnit_ignores_y_and_z :
    determineUnit 31 (-31) 31 = ("Bohr", 31, -31, 31) ∧
    determineUnit (-31) (-31) (-31) = ("Angstrom", 31, 31, 31) := by
  constructor
  · simp [determineUnit]
  · simp [determineUnit]

/-- Claim C2 evidence.  Mesh creation with one filter iteration returns
the raw vertex coordinates unchanged, because the smoothed mesh produced
by the filter call is discarded; one actual round of the smoothing filter
on the same mesh moves every vertex of the example triangle to its
centroid, a different coordinate list. -/
theorem createMeshFromVerticesAndFaces_discards_smoothing :
    (createMeshFromVerticesAndFaces [((0:ℚ),(0:ℚ),(0:ℚ)), (3,0,0), (0,3,0)]
        [(0,1,2)] 1).vertices = [((0:ℚ),(0:ℚ),(0:ℚ)), (3,0,0), (0,3,0)] ∧
    (filterSmoothSimple (Mesh.mk [((0:ℚ),(0:ℚ),(0:ℚ)), (3,0,0), (0,3,0)]
        [(0,1,2)]) 1).vertices = [((1:ℚ),(1:ℚ),(0:ℚ)), (1,1,0), (1,1,0)] ∧
    ([((0:ℚ),(0:ℚ),(0:ℚ)), (3,0,0), (0,3,0)] : List Vec3) ≠
      [((1:ℚ),(1:ℚ),(0:ℚ)), (1,1,0), (1,1,0)] := by
  refine ⟨rfl, ?_, by decide⟩
  simp +decide [filterSmoothSimple, smoothOnce, neighborIndices, triHas, vsum, vscale,
    List.range_succ]
  norm_num

/-- Claim C3 evidence.  The periodic-table lookup itself returns the full
symbol, but the symbol stored in the parsed result is truncated to its
first character by the one-character numpy string array it is written
into: atomic number 2 stores H instead of He and atomic number 0 stores
u instead of udf. -/
theorem storedAtomName_truncates :
    elementNumToString 2 = some "He" ∧ storedAtomName 2 = some "H" ∧
    elementNumToString 0 = some "udf" ∧ storedAtomName 0 = some "u" ∧
    storedAtomName 1 = some "H" := by decide

/-- Claim C4 counterexample.  The token 0.5e2 carries a lowercase
exponent marker and denotes 50 as an ordinary float, yet the parser
stores 0 for it, because the zero-substitution tests only for an
uppercase E. -/
theorem lowercase_exponent_token_zeroed :
    containsE "0.5e2" = false ∧ ("0.5e2".toList.contains 'e') = true ∧
    pythonFloat? "0.5e2" = some 50 ∧
    readCubeData ["0.5e2"] 1 = Except.ok [0] := by decide

/-- Claim C4 amended.  A token without an uppercase E is stored as 0.0
(whatever else it contains, including a lowercase exponent marker), and a
token containing an uppercase E that converts as an ordinary float is
stored with its float value. -/
theorem token_zeroSubst_spec (s : String) :
    (containsE s = false → readCubeData [s] 1 = Except.ok [0]) ∧
    (∀ x : ℚ, containsE s = true → pythonFloat? s = some x →
      readCubeData [s] 1 = Except.ok [x]) := by
  constructor
  · intro h
    simp [readCubeData, readDataAux, zeroSubst, h, pythonFloat_zero, List.replicate, List.set]
  · intro x h hx
    simp [readCubeData, readDataAux, zeroSubst, h, hx, List.replicate, List.set]

/-- Claim C4 witness: the spec's underflow token parses to 0.0 and an
uppercase-exponent token parses to its float value. -/
theorem token_zeroSubst_spec_witness :
    readCubeData ["0.806033-100"] 1 = Except.ok [0] ∧
    readCubeData ["0.25E2"] 1 = Except.ok [25] :=
  ⟨(token_zeroSubst_spec "0.806033-100").1 (by decide),
   (token_zeroSubst_spec "0.25E2").2 25 (by decide) (by decide)⟩

/-- Claim C5 counterexample.  A payload containing the token EXX - which
keeps its uppercase E through the zero substitution and then fails the
float conversion - still parses successfully: the conversion error is
swallowed, the entry stays 0.0, and the caller receives the full grid
rather than a MalformedData failure. -/
theorem unconvertible_token_no_abort :
    readCubeData ["1.0E0", "EXX", "2.0E0"] 4 = Except.ok [1, 0, 2, 0] := by decide

/-- Claim C5 amended.  When the token count fits the grid, parsing always
succeeds with a full-size grid, and the entry of every token that fails
the float conversion after zero substitution is left at 0.0; the failure
is logged and skipped, not propagated. -/
theorem readCubeData_unconvertible_entry_zero (tokens : List String) (n : ℕ)
    (h : tokens.length ≤ n) :
    ∃ out, readCubeData tokens n = Except.ok out ∧ out.length = n ∧
      ∀ k (hk : k < tokens.length),
        pythonFloat? (zeroSubst (tokens.get ⟨k, hk⟩)) = none → out.getD k 0 = 0 := by
  obtain ⟨out, h1, h2, _, h4⟩ :=
    readDataAux_ok tokens (List.replicate n 0) 0 (by simp; omega)
  refine ⟨out, h1, by simpa using h2, ?_⟩
  intro k hk hn
  have h5 := h4 k hk hn
  simpa [getD_replicate_zero] using h5

/-- Claim C5 witness: a grid of one entry fed the single unconvertible
token EXX parses successfully with the entry left at zero. -/
theorem readCubeData_unconvertible_entry_zero_witness :
    ∃ out, readCubeData ["EXX"] 1 = Except.ok out ∧ out.length = 1 ∧
      ∀ k (hk : k < (["EXX"] : List String).length),
        pythonFloat? (zeroSubst ((["EXX"] : List String).get ⟨k, hk⟩)) = none →
          out.getD k 0 = 0 :=
  readCubeData_unconvertible_entry_zero ["EXX"] 1 (by decide)

/-- Claim C6.  When the marching-cubes call fails, isosurface calculation
returns the pair of empty lists instead of propagating the exception (the
function is total), and downstream mesh creation on the empty vertex and
face lists is a well-defined no-op for any iteration count. -/
theorem calculateIsosurfaces_error_empty :
    ∀ (msg : String) (origin : Vec3) (n : ℕ),
      calculateIsosurfaces (Except.error msg) origin = ([], []) ∧
      createMeshFromVerticesAndFaces [] [] n = Mesh.mk [] [] := by
  intro msg origin n
  exact ⟨rfl, rfl⟩

/-- Claim C7.  Whatever neighbour lists the bond dictionary holds - in
particular when a pair is offered in both index orders - the resulting
bond list contains no duplicate entry and never contains both
orientations (i, j) and (j, i) of a pair of distinct atoms. -/
theorem calculateBonds_dedup (bondsDict : List (List ℕ)) (i j : ℕ) (hij : i ≠ j) :
    (calculateBonds bondsDict).Nodup ∧
    ¬((i, j) ∈ calculateBonds bondsDict ∧ (j, i) ∈ calculateBonds bondsDict) := by
  have hinv : (calculateBonds bondsDict).Nodup ∧ noMirrored (calculateBonds bondsDict) := by
    unfold calculateBonds
    refine foldl_preserve (fun s => s.Nodup ∧ noMirrored s) _ ?_ _ _ ⟨List.nodup_nil, ?_⟩
    · intro s p hs
      exact foldl_preserve (fun s => s.Nodup ∧ noMirrored s) _
        (fun s' j' hs' => addBond_invariant s' p.1 j' hs') p.2 s hs
    · intro a b ha
      simp at ha
  exact ⟨hinv.1, fun hb => hij (hinv.2 i j hb.1 hb.2)⟩

/-- Claim C7 witness: a dictionary offering the pair of atoms 0 and 1 in
both orders yields a bond list without duplicates or mirrored pairs. -/
theorem calculateBonds_dedup_witness :
    (0 : ℕ) ≠ 1 ∧
    ((calculateBonds [[1], [0]]).Nodup ∧
      ¬((0, 1) ∈ calculateBonds [[1], [0]] ∧ (1, 0) ∈ calculateBonds [[1], [0]])) :=
  ⟨by decide, calculateBonds_dedup [[1], [0]] 0 1 (by decide)⟩

/-- Claim C8.  With zero filter iterations, mesh creation returns the raw
extractor output bit for bit: the same vertex list (hence the same count
and coordinates) and the same face list; the smoothing filter itself is
also the identity at zero iterations. -/
theorem createMeshFromVerticesAndFaces_zero_iterations :
    ∀ (verts : List Vec3) (faces : List Tri),
      (createMeshFromVerticesAndFaces verts faces 0).vertices = verts ∧
      (createMeshFromVerticesAndFaces verts faces 0).vertices.length = verts.length ∧
      (createMeshFromVerticesAndFaces verts faces 0).triangles = faces ∧
      filterSmoothSimple (Mesh.mk verts faces) 0 = Mesh.mk verts faces := by
  intro verts faces
  exact ⟨rfl, rfl, rfl, rfl⟩

/-- Claim C9.  For an input dictionary in which filterIterations is
present, validation raises exactly when the value is not an integer or is
a negative integer; zero and every positive integer are accepted. -/
theorem validateFilterIterations_errors_iff :
    ∀ v : JValue, (∃ e, validateFilterIterations v = Except.error e) ↔
      ¬ ∃ n : ℤ, 0 ≤ n ∧ v = JValue.jint n := by
  intro v
  cases v with
  | jint n =>
    by_cases h : n < 0
    · simp [validateFilterIterations, h]
    · simp [validateFilterIterations, h]
  | jfloat q => simp [validateFilterIterations]
  | jbool b => simp [validateFilterIterations]
  | jstr s => simp [validateFilterIterations]

/-- Claim C10.  A payload with fewer tokens than grid points parses
successfully: the grid keeps its full flat size (so the reshape to
(nx, ny, nz) is valid) and every entry beyond the supplied tokens keeps
its pre-allocated value 0.0. -/
theorem readCubeData_fewer_tokens (tokens : List String) (nx ny nz : ℕ)
    (h : tokens.length < nx * ny * nz) :
    ∃ out, readCubeData tokens (nx * ny * nz) = Except.ok out ∧
      out.length = nx * ny * nz ∧ ∀ i, tokens.length ≤ i → out.getD i 0 = 0 := by
  obtain ⟨out, h1, h2, h3, _⟩ :=
    readDataAux_ok tokens (List.replicate (nx * ny * nz) 0) 0 (by simp; omega)
  refine ⟨out, h1, by simpa using h2, ?_⟩
  intro i hi
  have h5 := h3 i (Or.inr (by omega))
  simpa [getD_replicate_zero] using h5

/-- Claim C10 witness: one token into a 1 by 1 by 2 grid parses
successfully with the trailing entry still zero. -/
theorem readCubeData_fewer_tokens_witness :
    ∃ out, readCubeData ["1.0E0"] (1 * 1 * 2) = Except.ok out ∧
      out.length = 1 * 1 * 2 ∧
      ∀ i, (["1.0E0"] : List String).length ≤ i → out.getD i 0 = 0 :=
  readCubeData_fewer_tokens ["1.0E0"] 1 1 2 (by decide)

end RenderCube
